import Mathlib

/-!
Verification of the DAO proposal lifecycle and membership reconciliation
subsystem of the Yaebo repository: a shallow embedding of the smart
contract (DAO.sol), the Supabase mirror store (daoProposals, daoMembership),
the proposal reader fallback chain, and the client write pipelines
(joinDao, voteProposal, executeProposal) of daoUtils.ts and the dao page.
-/

namespace Yaebo

/-! Derived proposal status, as computed by the several read paths. -/

inductive Status where
  | voting
  | closed
  | marketplace
deriving DecidableEq

/-- Status derivation of the Supabase mirror read paths
(getProposalFromSupabase and getProposalsFromSupabase): start at voting;
when the deadline has passed, marketplace if executed else closed;
otherwise marketplace whenever executed. Timestamps are unix seconds. -/
def statusFromMirror (deadline now : Nat) (executed : Bool) : Status :=
  if deadline ≤ now then
    if executed then Status.marketplace else Status.closed
  else
    if executed then Status.marketplace else Status.voting

/-- Status derivation of the direct struct read inside getProposal in
daoUtils.ts: when the deadline has passed the code computes
(executed ? closed : marketplace), and otherwise leaves voting. -/
def statusFromStructRead (deadline now : Nat) (executed : Bool) : Status :=
  if deadline ≤ now then
    if executed then Status.closed else Status.marketplace
  else Status.voting

/-- Status derivation of the event-reconstruction path
getProposalFromEvents in daoUtils.ts: marketplace once the synthetic
deadline has passed, voting before; executed is always reported false
on this path. -/
def statusFromEvents (deadline now : Nat) : Status :=
  if deadline ≤ now then Status.marketplace else Status.voting

/-- Modelled from the spec: the status mapping the specification states for
all read paths — marketplace whenever executed, closed when the deadline
has passed and the proposal is not executed, voting otherwise. -/
def specStatus (deadline now : Nat) (executed : Bool) : Status :=
  if executed then Status.marketplace
  else if deadline ≤ now then Status.closed
  else Status.voting

/-! The smart contract DAO.sol, embedded as explicit state passing.
Addresses are strings; uint256 values are Nat (no arithmetic here comes
near 2^256, and the contract only increments counters). -/

structure ChainProposal where
  yayVotes : Nat
  nayVotes : Nat
  deadline : Nat
  user : String
  lotSize : Nat
  sharePrice : Nat
  maxPerInvestor : Nat
  proposalSummary : String
  executed : Bool
  voted : String → Bool

/-- State of the Dao contract: the addressToUser membership mapping
(its single isMember field), the numProposal counter and the
idToProposal mapping. -/
structure DaoState where
  addressToUser : String → Bool
  numProposal : Nat
  idToProposal : Nat → ChainProposal

/-- Pointwise update of the idToProposal mapping. -/
def updateAt (f : Nat → ChainProposal) (i : Nat) (p : ChainProposal) :
    Nat → ChainProposal :=
  fun j => if j = i then p else f j

/-- Event proposalVoted(proposalId, user) of the contract. -/
structure VoteEvent where
  proposalId : Nat
  voter : String
deriving DecidableEq

/-- executeProposal of DAO.sol: onlyMember; requires that the proposal
named by the argument is not yet executed; then sets the executed flag of
idToProposal[numProposal] — the highest-numbered proposal, not the one
named by the argument. -/
def executeProposal (s : DaoState) (sender : String) (proposalId : Nat) :
    Except String DaoState :=
  if s.addressToUser sender = false then
    Except.error "not a member of pool"
  else if (s.idToProposal proposalId).executed then
    Except.error "proposal already executed"
  else
    let latest := s.idToProposal s.numProposal
    let table := updateAt s.idToProposal s.numProposal { latest with executed := true }
    Except.ok { s with idToProposal := table }

inductive Vote where
  | yay
  | nay
deriving DecidableEq

/-- voteProposal of DAO.sol: onlyMember; requires the deadline of the
named proposal to lie strictly in the future and the sender not to have
voted on it; increments the matching counter, records the vote, and
emits proposalVoted(numProposal, msg.sender) — with the numProposal
counter, not the proposalId argument, as the event id. -/
def contractVoteProposal (s : DaoState) (sender : String) (proposalId : Nat)
    (vote : Vote) (blockTimestamp : Nat) :
    Except String (DaoState × VoteEvent) :=
  if s.addressToUser sender = false then
    Except.error "not a member of pool"
  else if ¬ (s.idToProposal proposalId).deadline > blockTimestamp then
    Except.error "deadline exceeded"
  else if (s.idToProposal proposalId).voted sender then
    Except.error "already voted"
  else
    let p := s.idToProposal proposalId
    let p1 := if vote = Vote.yay then { p with yayVotes := p.yayVotes + 1 } else p
    let p2 := if vote = Vote.nay then { p1 with nayVotes := p1.nayVotes + 1 } else p1
    let p3 := { p2 with voted := fun a => if a = sender then true else p2.voted a }
    Except.ok ({ s with idToProposal := updateAt s.idToProposal proposalId p3 },
      { proposalId := s.numProposal, voter := sender })

/-! Concrete sample contract state used by witnesses. -/

def emptyProposal : ChainProposal :=
  { yayVotes := 0
    nayVotes := 0
    deadline := 0
    user := ""
    lotSize := 0
    sharePrice := 0
    maxPerInvestor := 0
    proposalSummary := ""
    executed := false
    voted := fun _ => false }

def sampleProposalOne : ChainProposal :=
  { emptyProposal with
    deadline := 1000
    user := "alice"
    lotSize := 1000
    sharePrice := 10
    maxPerInvestor := 5
    proposalSummary := "Test" }

def sampleProposalTwo : ChainProposal :=
  { emptyProposal with deadline := 2000, user := "alice" }

def sampleState : DaoState :=
  { addressToUser := fun a => a == "alice" || a == "bob"
    numProposal := 2
    idToProposal := fun j =>
      if j = 1 then sampleProposalOne
      else if j = 2 then sampleProposalTwo
      else emptyProposal }

/-! Theorems for claims C1, C2, C3. -/

/-- C1: the claim states that every read path derives status closed when
the deadline has passed and the proposal is unexecuted, marketplace
whenever executed, and voting when the deadline is in the future and the
proposal is unexecuted. The Supabase mirror paths satisfy that mapping for
all inputs, but the direct struct read in getProposal inverts the ternary
(closed when executed, marketplace when not, once the deadline has passed,
and voting for an executed proposal before its deadline), and the event
reconstruction path reports marketplace for an unexecuted proposal after
the deadline; both diverge from the stated mapping at deadline 5, now 10. -/
theorem status_derivation_bug :
    (∀ d n e, statusFromMirror d n e = specStatus d n e) ∧
    statusFromStructRead 5 10 true = Status.closed ∧
    specStatus 5 10 true = Status.marketplace ∧
    statusFromStructRead 5 10 false = Status.marketplace ∧
    specStatus 5 10 false = Status.closed ∧
    statusFromStructRead 20 10 true = Status.voting ∧
    specStatus 20 10 true = Status.marketplace ∧
    statusFromEvents 5 10 = Status.marketplace ∧
    specStatus 5 10 false = Status.closed := by
  refine ⟨?_, by decide, by decide, by decide, by decide, by decide,
    by decide, by decide, by decide⟩
  intro d n e
  unfold statusFromMirror specStatus
  rcases e with _ | _ <;> split <;> simp

/-- C2: whenever executeProposal succeeds, the proposal that gets marked
executed is the highest-numbered one (idToProposal numProposal), whatever
id was passed; every other proposal is unchanged, and the only use of the
passed id is the already-executed pre-check, so success requires only that
the named proposal is unexecuted. -/
theorem executeProposal_targets_latest (s : DaoState) (sender : String)
    (id : Nat) (hm : s.addressToUser sender = true)
    (hx : (s.idToProposal id).executed = false) :
    ∃ s2, executeProposal s sender id = Except.ok s2 ∧
      (s2.idToProposal s.numProposal).executed = true ∧
      (∀ j, j ≠ s.numProposal → s2.idToProposal j = s.idToProposal j) ∧
      s2.numProposal = s.numProposal ∧
      s2.addressToUser = s.addressToUser := by
  have h1 : executeProposal s sender id =
      Except.ok { s with idToProposal := updateAt s.idToProposal s.numProposal { (s.idToProposal s.numProposal) with executed := true } } := by
    unfold executeProposal
    rw [hm, hx]
    rfl
  refine ⟨_, h1, ?_, ?_, rfl, rfl⟩
  · simp [updateAt]
  · intro j hj
    simp [updateAt, hj]

/-- C2 witness: in the concrete sample state with numProposal = 2, member
alice executing proposal 1 marks proposal 2 executed and leaves
proposal 1 untouched. -/
theorem executeProposal_targets_latest_witness :
    sampleState.addressToUser "alice" = true ∧
    (sampleState.idToProposal 1).executed = false ∧
    ∃ s2, executeProposal sampleState "alice" 1 = Except.ok s2 ∧
      (s2.idToProposal sampleState.numProposal).executed = true ∧
      (∀ j, j ≠ sampleState.numProposal →
        s2.idToProposal j = sampleState.idToProposal j) ∧
      s2.numProposal = sampleState.numProposal ∧
      s2.addressToUser = sampleState.addressToUser :=
  ⟨by decide, by decide,
    executeProposal_targets_latest sampleState "alice" 1 (by decide) (by decide)⟩

/-- C3: every successful voteProposal emits a proposalVoted event whose id
is the current numProposal counter, not the proposalId argument; hence a
vote on any proposal other than the latest carries the wrong id in the
event, and replaying events attributes it to the latest proposal. -/
theorem voteProposal_event_wrong_id (s : DaoState) (sender : String)
    (id : Nat) (v : Vote) (ts : Nat) (s2 : DaoState) (ev : VoteEvent)
    (h : contractVoteProposal s sender id v ts = Except.ok (s2, ev)) :
    ev.proposalId = s.numProposal ∧
    (id ≠ s.numProposal → ev.proposalId ≠ id) := by
  unfold contractVoteProposal at h
  split at h
  · exact absurd h (by simp)
  · split at h
    · exact absurd h (by simp)
    · split at h
      · exact absurd h (by simp)
      · simp only [Except.ok.injEq, Prod.mk.injEq] at h
        obtain ⟨-, hev⟩ := h
        subst hev
        exact ⟨rfl, fun hne => hne.symm⟩

/-- C3 witness: member bob voting yay on proposal 1 of the sample state
(numProposal = 2) at timestamp 500 succeeds and the emitted event names
proposal 2, not proposal 1. -/
theorem voteProposal_event_wrong_id_witness :
    ∃ s2 ev, contractVoteProposal sampleState "bob" 1 Vote.yay 500 =
        Except.ok (s2, ev) ∧
      ev.proposalId = sampleState.numProposal ∧
      (1 ≠ sampleState.numProposal → ev.proposalId ≠ 1) := by
  refine ⟨_, _, rfl, ?_⟩
  exact voteProposal_event_wrong_id sampleState "bob" 1 Vote.yay 500 _ _ rfl

/-! Membership reconciliation: the dao_members mirror of daoMembership.ts,
the isDaoMember decoding of daoUtils.ts, and the retry loop of the dao
page, composed. -/

/-- Row of the dao_members table. -/
structure MemberRow where
  wallet_address : String
  is_member : Bool
deriving DecidableEq

/-- getDaoMembership of daoMembership.ts: look up the lowercase-normalized
address in dao_members; a missing row or any error reads as false. -/
def getDaoMembership (table : List MemberRow) (walletAddress : String) : Bool :=
  match table.find? (fun r => r.wallet_address == walletAddress.toLower) with
  | none => false
  | some r => r.is_member

/-- Shape of the value the addressToUser contract read hands to
isDaoMember: the flag may decode as a struct-like object, as a bare
boolean, or as an array, or the call may throw. -/
inductive MemberReadResult where
  | structShape (b : Bool)
  | boolShape (b : Bool)
  | arrayShape (l : List Bool)
  | readFailure
deriving DecidableEq

/-- isDaoMember of daoUtils.ts: extract the membership flag from whichever
encoding the read produced; an empty array reads as false (Boolean of a
missing field on an array) and every thrown error is caught and reported
as false, so the function itself never throws. -/
def isDaoMember : MemberReadResult → Bool
  | MemberReadResult.structShape b => b
  | MemberReadResult.boolShape b => b
  | MemberReadResult.arrayShape [] => false
  | MemberReadResult.arrayShape (b :: _) => b
  | MemberReadResult.readFailure => false

/-- Outcome of one attempt of a retry loop: the call either threw or
completed with a boolean. -/
inductive AttemptOutcome where
  | threw
  | returned (b : Bool)
deriving DecidableEq

/-- The retry loop of checkWalletAndMembership in the dao page: starting
from the cached value, try the membership call up to fuel times; the
first attempt that completes decides the result, an attempt that throws
is retried, and when every attempt has thrown the cached value stands
(false is written back when there is no cache entry). -/
def membershipRetryLoop (cached : Bool) : Nat → List AttemptOutcome → Bool
  | _, [] => cached
  | 0, _ => cached
  | Nat.succ _, AttemptOutcome.returned b :: _ => b
  | Nat.succ r, AttemptOutcome.threw :: rest => membershipRetryLoop cached r rest

/-- checkWalletAndMembership of the dao page, composed with isDaoMember:
the cache is read first, then up to 3 attempts of the contract check;
since isDaoMember catches every read error and returns false, each
attempt completes with the decoded flag. -/
def checkWalletAndMembership (table : List MemberRow) (walletAddress : String)
    (reads : List MemberReadResult) : Bool :=
  membershipRetryLoop (getDaoMembership table walletAddress) 3
    (reads.map (fun r => AttemptOutcome.returned (isDaoMember r)))

/-- C4: when the contract membership read throws on every retry and the
dao_members mirror has no row for the queried address, the composed
membership check returns false, never true. -/
theorem membership_fail_closed (table : List MemberRow) (addr : String)
    (reads : List MemberReadResult)
    (hcache : table.find? (fun r => r.wallet_address == addr.toLower) = none)
    (hreads : ∀ r ∈ reads, r = MemberReadResult.readFailure) :
    checkWalletAndMembership table addr reads = false := by
  have hc : getDaoMembership table addr = false := by
    unfold getDaoMembership
    rw [hcache]
  unfold checkWalletAndMembership
  rw [hc]
  cases reads with
  | nil => rfl
  | cons r rest =>
    have hr : r = MemberReadResult.readFailure := hreads r (by simp)
    subst hr
    rfl

/-- C4 witness: an empty mirror table and three read failures yield a
negative membership answer for the address Alice. -/
theorem membership_fail_closed_witness :
    (List.find? (fun r => r.wallet_address == "Alice".toLower)
      ([] : List MemberRow) = none) ∧
    (∀ r ∈ [MemberReadResult.readFailure, MemberReadResult.readFailure,
        MemberReadResult.readFailure], r = MemberReadResult.readFailure) ∧
    checkWalletAndMembership [] "Alice" [MemberReadResult.readFailure,
      MemberReadResult.readFailure, MemberReadResult.readFailure] = false :=
  ⟨rfl, by decide, membership_fail_closed [] "Alice" _ rfl (by decide)⟩

/-! The post-join verification loop of handleJoinDao in the dao page. -/

/-- One pass of the verification loop of handleJoinDao: fuel is the
remaining retries, outcome gives the result of the membership check of
each attempt (an attempt that throws is caught and retried); returns
whether membership was verified together with the number of attempts
made. -/
def joinVerifyGo (outcome : Nat → AttemptOutcome) : Nat → Nat → Bool × Nat
  | 0, made => (false, made)
  | Nat.succ r, made =>
    if outcome made = AttemptOutcome.returned true then (true, made + 1)
    else joinVerifyGo outcome r (made + 1)

/-- Outcome of the post-confirmation phase of handleJoinDao. -/
structure JoinVerifyResult where
  member : Bool
  verified : Bool
  cacheSetMember : Bool
  attemptsMade : Nat
  delayMsTotal : Nat
deriving DecidableEq

/-- Post-confirmation verification of handleJoinDao: up to 10 attempts,
each preceded by a 2000 ms delay; on verification the page state and the
dao_members cache are set to member; when the loop exhausts unverified
they are still set to member and the result is reported as successful but
with verification pending. -/
def handleJoinVerify (outcome : Nat → AttemptOutcome) : JoinVerifyResult :=
  let r := joinVerifyGo outcome 10 0
  { member := true
    verified := r.1
    cacheSetMember := true
    attemptsMade := r.2
    delayMsTotal := 2000 * r.2 }

theorem joinVerifyGo_le (outcome : Nat → AttemptOutcome) (fuel : Nat) :
    ∀ made, (joinVerifyGo outcome fuel made).2 ≤ made + fuel := by
  induction fuel with
  | zero => intro made; simp [joinVerifyGo]
  | succ r ih =>
    intro made
    unfold joinVerifyGo
    by_cases h : outcome made = AttemptOutcome.returned true
    · simp only [h, if_pos]
      omega
    · rw [if_neg h]
      have := ih (made + 1)
      omega

theorem joinVerifyGo_exhaust (outcome : Nat → AttemptOutcome) (fuel : Nat) :
    ∀ made, (∀ i, made ≤ i → i < made + fuel →
      outcome i ≠ AttemptOutcome.returned true) →
    joinVerifyGo outcome fuel made = (false, made + fuel) := by
  induction fuel with
  | zero => intro made _; simp [joinVerifyGo]
  | succ r ih =>
    intro made h
    unfold joinVerifyGo
    rw [if_neg (h made le_rfl (by omega))]
    rw [ih (made + 1) (fun i h1 h2 => h i (by omega) (by omega))]
    have he : made + 1 + r = made + (r + 1) := by omega
    rw [he]

/-- C6: the join verification loop makes at most 10 attempts, the total
verification delay is 2000 ms per attempt made, and when no attempt
verifies membership the result still records the caller as a member and
sets the cache to member, flagged unverified rather than failed. -/
theorem join_verification_bounded (outcome : Nat → AttemptOutcome) :
    (handleJoinVerify outcome).attemptsMade ≤ 10 ∧
    (handleJoinVerify outcome).delayMsTotal =
      2000 * (handleJoinVerify outcome).attemptsMade ∧
    ((∀ i, i < 10 → outcome i ≠ AttemptOutcome.returned true) →
      (handleJoinVerify outcome).verified = false ∧
      (handleJoinVerify outcome).member = true ∧
      (handleJoinVerify outcome).cacheSetMember = true ∧
      (handleJoinVerify outcome).attemptsMade = 10) := by
  refine ⟨?_, rfl, ?_⟩
  · have := joinVerifyGo_le outcome 10 0
    simpa [handleJoinVerify] using this
  · intro h
    have hex := joinVerifyGo_exhaust outcome 10 0
      (fun i _ h2 => h i (by omega))
    refine ⟨?_, rfl, rfl, ?_⟩ <;> simp [handleJoinVerify, hex]

/-- Outcome stream where every membership check completes negatively. -/
def allFalseOutcome : Nat → AttemptOutcome := fun _ => AttemptOutcome.returned false

/-- C6 witness: with every check returning false, the loop runs all 10
attempts, spends 20000 ms of delay, leaves the result unverified, and
still records membership in state and cache. -/
theorem join_verification_bounded_witness :
    (∀ i, i < 10 → allFalseOutcome i ≠ AttemptOutcome.returned true) ∧
    (handleJoinVerify allFalseOutcome).verified = false ∧
    (handleJoinVerify allFalseOutcome).member = true ∧
    (handleJoinVerify allFalseOutcome).cacheSetMember = true ∧
    (handleJoinVerify allFalseOutcome).attemptsMade = 10 :=
  ⟨fun _ _ h => by simp [allFalseOutcome] at h,
   (join_verification_bounded allFalseOutcome).2.2
     (fun _ _ h => by simp [allFalseOutcome] at h)⟩

/-! The dao_proposals mirror store (daoProposals module) and the proposal
reader fallback chain of daoUtils.ts. -/

/-- Row of the dao_proposals table; timestamps are unix seconds. -/
structure ProposalRow where
  proposal_id : Nat
  lot_size : Nat
  share_price : Nat
  max_per_investor : Nat
  proposal_summary : String
  creator_address : String
  deadline : Nat
  transaction_hash : String
  yay_votes : Nat
  nay_votes : Nat
  executed : Bool
  created_at : Nat
  updated_at : Nat
deriving DecidableEq

/-- The Proposal interface of daoUtils.ts. -/
structure Proposal where
  id : String
  proposalId : Nat
  lotSize : Nat
  sharePrice : Nat
  maxPerInvestor : Nat
  proposalSummary : String
  deadline : Nat
  user : String
  yayVotes : Nat
  nayVotes : Nat
  executed : Bool
  status : Status
  createdAt : Nat
  votingEndsAt : Nat
deriving DecidableEq

/-- Transformation of a dao_proposals row into a Proposal, as performed by
getProposalFromSupabase and getProposalsFromSupabase, including the mirror
status derivation. -/
def rowToProposal (r : ProposalRow) (now : Nat) : Proposal :=
  { id := toString r.proposal_id
    proposalId := r.proposal_id
    lotSize := r.lot_size
    sharePrice := r.share_price
    maxPerInvestor := r.max_per_investor
    proposalSummary := r.proposal_summary
    deadline := r.deadline
    user := r.creator_address
    yayVotes := r.yay_votes
    nayVotes := r.nay_votes
    executed := r.executed
    status := statusFromMirror r.deadline now r.executed
    createdAt := r.created_at
    votingEndsAt := r.deadline }

/-- getProposalFromSupabase: select the row with the given proposal id,
none when the table has no such row. -/
def getProposalFromSupabase (table : List ProposalRow) (pid : Nat)
    (now : Nat) : Option Proposal :=
  match table.find? (fun r => r.proposal_id == pid) with
  | none => none
  | some r => some (rowToProposal r now)

/-- A proposalCreated event together with the timestamp of its containing
block (none when the block lookup returns nothing). -/
structure CreatedEvent where
  proposalId : Nat
  user : String
  blockTimestamp : Option Nat
deriving DecidableEq

/-- getProposalFromEvents of daoUtils.ts: find the proposalCreated event
with the matching id, take the containing block timestamp as createdAt
(falling back to now when the block or its timestamp is missing, a zero
timestamp being falsy), set the deadline 7 days later, and default the
vote counts, financial terms and executed flag. -/
def getProposalFromEvents (pid : Nat) (events : List CreatedEvent)
    (now : Nat) : Option Proposal :=
  match events.find? (fun e => e.proposalId == pid) with
  | none => none
  | some e =>
    let createdAt := match e.blockTimestamp with
      | some t => if t = 0 then now else t
      | none => now
    let deadline := createdAt + 7 * 24 * 60 * 60
    some { id := toString pid
           proposalId := pid
           lotSize := 0
           sharePrice := 0
           maxPerInvestor := 0
           proposalSummary := "Proposal " ++ toString pid
           deadline := deadline
           user := e.user
           yayVotes := 0
           nayVotes := 0
           executed := false
           status := statusFromEvents deadline now
           createdAt := createdAt
           votingEndsAt := deadline }

/-- Decoded view of the idToProposal struct, when the direct read works. -/
structure StructView where
  yayVotes : Nat
  nayVotes : Nat
  deadline : Nat
  user : String
  lotSize : Nat
  sharePrice : Nat
  maxPerInvestor : Nat
  proposalSummary : String
  executed : Bool
deriving DecidableEq

/-- Outcome of the direct idToProposal contract read: either a decoded
struct or a decode failure (the expected case, since the struct holds a
nested mapping the ABI cannot expose). -/
inductive StructReadResult where
  | decoded (v : StructView)
  | decodeError
deriving DecidableEq

/-- getProposal of daoUtils.ts: try the direct struct read; a decoded
struct with zero deadline means no such proposal; on decode failure fall
back to event reconstruction. -/
def getProposal (structRead : StructReadResult) (pid : Nat)
    (events : List CreatedEvent) (now : Nat) : Option Proposal :=
  match structRead with
  | StructReadResult.decoded v =>
    if v.deadline = 0 then none
    else
      some { id := toString pid
             proposalId := pid
             lotSize := v.lotSize
             sharePrice := v.sharePrice
             maxPerInvestor := v.maxPerInvestor
             proposalSummary := v.proposalSummary
             deadline := v.deadline
             user := v.user
             yayVotes := v.yayVotes
             nayVotes := v.nayVotes
             executed := v.executed
             status := statusFromStructRead v.deadline now v.executed
             createdAt := v.deadline - 7 * 24 * 60 * 60
             votingEndsAt := v.deadline }
  | StructReadResult.decodeError => getProposalFromEvents pid events now

/-- The source priority chain for resolving one proposal: mirror store
first (the bulk reader prefers Supabase), then the direct struct read,
then event replay. -/
def resolveProposal (table : List ProposalRow) (structRead : StructReadResult)
    (pid : Nat) (events : List CreatedEvent) (now : Nat) : Option Proposal :=
  match getProposalFromSupabase table pid now with
  | some p => some p
  | none => getProposal structRead pid events now

/-- C5: for a proposal id absent from the mirror whose struct read fails
to decode but whose proposalCreated event is in the log, resolution
returns a non-null proposal reconstructed from the event, with zero vote
counts, executed false, and deadline equal to the block timestamp of the
event plus 7 days in seconds. -/
theorem reader_event_fallback (table : List ProposalRow) (pid : Nat)
    (events : List CreatedEvent) (now : Nat) (ev : CreatedEvent) (ts : Nat)
    (hmirror : table.find? (fun r => r.proposal_id == pid) = none)
    (hev : events.find? (fun e => e.proposalId == pid) = some ev)
    (hts : ev.blockTimestamp = some ts) (hts0 : ts ≠ 0) :
    ∃ p, resolveProposal table StructReadResult.decodeError pid events now =
        some p ∧
      p.yayVotes = 0 ∧ p.nayVotes = 0 ∧ p.executed = false ∧
      p.deadline = ts + 7 * 24 * 3600 := by
  unfold resolveProposal getProposalFromSupabase getProposal getProposalFromEvents
  simp only [hmirror, hev, hts]
  rw [if_neg hts0]
  refine ⟨_, rfl, rfl, rfl, rfl, ?_⟩
  show ts + 7 * 24 * 60 * 60 = ts + 7 * 24 * 3600
  norm_num

/-- Concrete proposalCreated event used by the C5 witness. -/
def sampleEvent : CreatedEvent :=
  { proposalId := 3
    user := "alice"
    blockTimestamp := some 1000 }

/-- C5 witness: with an empty mirror, a failing struct read, and the
sample event for proposal 3 at block timestamp 1000, resolution yields a
proposal with zero votes, executed false and deadline 1000 + 604800. -/
theorem reader_event_fallback_witness :
    (List.find? (fun r => r.proposal_id == 3) ([] : List ProposalRow) = none) ∧
    ([sampleEvent].find? (fun e => e.proposalId == 3) = some sampleEvent) ∧
    sampleEvent.blockTimestamp = some 1000 ∧ (1000 : Nat) ≠ 0 ∧
    ∃ p, resolveProposal [] StructReadResult.decodeError 3 [sampleEvent] 0 =
        some p ∧
      p.yayVotes = 0 ∧ p.nayVotes = 0 ∧ p.executed = false ∧
      p.deadline = 1000 + 7 * 24 * 3600 :=
  ⟨rfl, by decide, rfl, by decide,
   reader_event_fallback [] 3 [sampleEvent] 0 sampleEvent 1000 rfl (by decide)
     rfl (by decide)⟩

/-! The proposal upsert of storeProposalInSupabase: the dao_proposals
table carries a unique key on proposal_id, and upsert with onConflict on
that column replaces the conflicting row. -/

/-- Upsert keyed by proposal_id: replace the conflicting row when one
exists, append otherwise. -/
def upsertRow (table : List ProposalRow) (r : ProposalRow) : List ProposalRow :=
  if table.any (fun q => q.proposal_id == r.proposal_id) then
    table.map (fun q => if q.proposal_id == r.proposal_id then r else q)
  else table ++ [r]

/-- The row storeProposalInSupabase builds: zeroed vote counts, executed
false, lowercase creator, identical created and updated timestamps. -/
def storeProposalRow (proposalId lotSize sharePrice maxPerInvestor : Nat)
    (proposalSummary user : String) (deadline : Nat)
    (transactionHash : String) (now : Nat) : ProposalRow :=
  { proposal_id := proposalId
    lot_size := lotSize
    share_price := sharePrice
    max_per_investor := maxPerInvestor
    proposal_summary := proposalSummary
    creator_address := user.toLower
    deadline := deadline
    transaction_hash := transactionHash
    yay_votes := 0
    nay_votes := 0
    executed := false
    created_at := now
    updated_at := now }

/-- storeProposalInSupabase: upsert the built row into dao_proposals with
onConflict proposal_id. -/
def storeProposalInSupabase (table : List ProposalRow)
    (proposalId lotSize sharePrice maxPerInvestor : Nat)
    (proposalSummary user : String) (deadline : Nat)
    (transactionHash : String) (now : Nat) : List ProposalRow :=
  upsertRow table (storeProposalRow proposalId lotSize sharePrice
    maxPerInvestor proposalSummary user deadline transactionHash now)

theorem filter_map_upsert (r : ProposalRow) (t : List ProposalRow) :
    (t.map (fun q => if q.proposal_id == r.proposal_id then r else q)).filter
      (fun q => q.proposal_id == r.proposal_id) =
    List.replicate (t.countP (fun q => q.proposal_id == r.proposal_id)) r := by
  induction t with
  | nil => rfl
  | cons a t ih =>
    cases h : a.proposal_id == r.proposal_id with
    | true =>
      simp only [List.map_cons, List.filter_cons, List.countP_cons, h,
        if_pos, beq_self_eq_true, ih, List.replicate_succ]
    | false =>
      simp only [List.map_cons, List.filter_cons, List.countP_cons, h,
        if_neg, Bool.false_eq_true, ite_false, ih, Nat.add_zero]

theorem upsertRow_filter (t : List ProposalRow) (r : ProposalRow) (n : Nat)
    (hr : r.proposal_id = n)
    (h : (t.filter (fun q => q.proposal_id == n)).length ≤ 1) :
    (upsertRow t r).filter (fun q => q.proposal_id == n) = [r] := by
  subst hr
  unfold upsertRow
  cases ha : t.any (fun q => q.proposal_id == r.proposal_id) with
  | false =>
    rw [if_neg (by simp [ha])]
    rw [List.filter_append]
    have hnil : t.filter (fun q => q.proposal_id == r.proposal_id) = [] := by
      rw [List.filter_eq_nil_iff]
      intro q hq
      have := List.any_eq_false.mp ha q hq
      simpa using this
    rw [hnil]
    simp
  | true =>
    rw [if_pos (by simp [ha])]
    rw [filter_map_upsert]
    have hcf : t.countP (fun q => q.proposal_id == r.proposal_id) =
        (t.filter (fun q => q.proposal_id == r.proposal_id)).length :=
      List.countP_eq_length_filter _ _
    have hpos : 0 < t.countP (fun q => q.proposal_id == r.proposal_id) := by
      rw [List.countP_pos_iff]
      obtain ⟨q, hq, hpq⟩ := List.any_eq_true.mp ha
      exact ⟨q, hq, hpq⟩
    have hone : t.countP (fun q => q.proposal_id == r.proposal_id) = 1 := by
      omega
    rw [hone]
    rfl

/-- C10: calling the proposal upsert twice with the same proposalId and
different summary text leaves exactly one stored record for that id, and
that record is the row built by the latest call. -/
theorem upsert_latest_wins (table : List ProposalRow)
    (pid la spa ma lb spb mb : Nat) (sa sb ua ub : String) (da db : Nat)
    (txa txb : String) (na nb : Nat)
    (hkey : (table.filter (fun q => q.proposal_id == pid)).length ≤ 1)
    (_hsum : sa ≠ sb) :
    (storeProposalInSupabase
        (storeProposalInSupabase table pid la spa ma sa ua da txa na)
        pid lb spb mb sb ub db txb nb).filter
      (fun q => q.proposal_id == pid) =
    [storeProposalRow pid lb spb mb sb ub db txb nb] := by
  have e1 : (storeProposalInSupabase table pid la spa ma sa ua da txa na).filter
      (fun q => q.proposal_id == pid) =
      [storeProposalRow pid la spa ma sa ua da txa na] :=
    upsertRow_filter table _ pid rfl hkey
  exact upsertRow_filter _ _ pid rfl (by rw [e1]; simp)

/-- C10 witness: starting from the empty table, storing proposal 7 with
summary first and again with summary second leaves exactly the second row
for proposal 7. -/
theorem upsert_latest_wins_witness :
    ((([] : List ProposalRow).filter (fun q => q.proposal_id == 7)).length ≤ 1) ∧
    ("first" : String) ≠ "second" ∧
    (storeProposalInSupabase
        (storeProposalInSupabase [] 7 1000 10 5 "first" "Alice" 604800 "0xaa" 1)
        7 1000 10 5 "second" "Alice" 604800 "0xbb" 2).filter
      (fun q => q.proposal_id == 7) =
    [storeProposalRow 7 1000 10 5 "second" "Alice" 604800 "0xbb" 2] :=
  ⟨by decide, by decide,
   upsert_latest_wins [] 7 1000 10 5 1000 10 5 "first" "second" "Alice" "Alice"
     604800 604800 "0xaa" "0xbb" 1 2 (by decide) (by decide)⟩

/-! Client write pipelines of daoUtils.ts: each is a pure function of the
outcomes of its chain calls, paired with a trace recording whether a gas
estimation and a transaction send happened. -/

/-- Trace of a write pipeline run. -/
structure CallTrace where
  estimateCalled : Bool
  sendCalled : Bool
deriving DecidableEq

/-- One gwei in wei, the fallback gas price of join and vote. -/
def gweiWei : Nat := 1000000000

/-- Twenty gwei in wei, the fallback gas price of execute. -/
def twentyGweiWei : Nat := 20000000000

/-- Revert reason classes recognised by the voteProposal estimation
translation. -/
inductive VoteRevertKind where
  | deadline
  | alreadyVoted
  | notMember
  | other (msg : String)
deriving DecidableEq

/-- Typed failures of the voteProposal write path. -/
inductive VoteErr where
  | readFailed (msg : String)
  | rangeError (pid maxId : Nat)
  | notMemberPre
  | revertDeadline
  | revertAlreadyVoted
  | revertNotMember
  | revertOther (msg : String)
deriving DecidableEq

/-- The vote transaction as submitted. -/
structure SubmittedVoteTx where
  proposalId : Nat
  vote : Nat
  gasPrice : Nat
  gasLimit : Nat
deriving DecidableEq

/-- clientVoteProposal: the voteProposal write path of daoUtils.ts.
Step 1 reads numProposal and rejects an id outside 1..numProposal,
step 2 checks membership, step 3 estimates gas translating revert kinds
into specific errors, steps 4 to 6 take the fee gas price with a 1 gwei
fallback, buffer the estimate by 20 percent and send. -/
def clientVoteProposal (pid vote : Nat) (numProposalRead : Except String Nat)
    (memberCheck : Bool) (estimate : Except VoteRevertKind Nat)
    (feeGasPrice : Option Nat) : Except VoteErr SubmittedVoteTx × CallTrace :=
  match numProposalRead with
  | Except.error m => (Except.error (VoteErr.readFailed m), ⟨false, false⟩)
  | Except.ok maxId =>
    if pid < 1 ∨ pid > maxId then
      (Except.error (VoteErr.rangeError pid maxId), ⟨false, false⟩)
    else if memberCheck = false then
      (Except.error VoteErr.notMemberPre, ⟨false, false⟩)
    else
      match estimate with
      | Except.error VoteRevertKind.deadline =>
        (Except.error VoteErr.revertDeadline, ⟨true, false⟩)
      | Except.error VoteRevertKind.alreadyVoted =>
        (Except.error VoteErr.revertAlreadyVoted, ⟨true, false⟩)
      | Except.error VoteRevertKind.notMember =>
        (Except.error VoteErr.revertNotMember, ⟨true, false⟩)
      | Except.error (VoteRevertKind.other m) =>
        (Except.error (VoteErr.revertOther m), ⟨true, false⟩)
      | Except.ok e =>
        let gasPrice := feeGasPrice.getD gweiWei
        let gasLimit := e + e / 5
        (Except.ok ⟨pid, vote, gasPrice, gasLimit⟩, ⟨true, true⟩)

/-- C7: voting on proposal 0 and on proposal numProposal + 1 both fail
with the range error, with no gas estimation and no send. -/
theorem vote_range_check_first (vote maxId : Nat) (memberCheck : Bool)
    (estimate : Except VoteRevertKind Nat) (feeGasPrice : Option Nat) :
    (clientVoteProposal 0 vote (Except.ok maxId) memberCheck estimate
        feeGasPrice =
      (Except.error (VoteErr.rangeError 0 maxId), ⟨false, false⟩)) ∧
    (clientVoteProposal (maxId + 1) vote (Except.ok maxId) memberCheck estimate
        feeGasPrice =
      (Except.error (VoteErr.rangeError (maxId + 1) maxId), ⟨false, false⟩)) := by
  constructor
  · have h : ((0 : Nat) < 1 ∨ (0 : Nat) > maxId) := Or.inl (by omega)
    simp only [clientVoteProposal, if_pos h]
  · have h : (maxId + 1 < 1 ∨ maxId + 1 > maxId) := Or.inr (by omega)
    simp only [clientVoteProposal, if_pos h]

/-- Typed failures of the joinDao write path. -/
inductive JoinErr where
  | alreadyMember
  | failed (msg : String)
deriving DecidableEq

/-- The join transaction as submitted. -/
structure JoinTx where
  valueWei : Nat
  gasPrice : Nat
  gasLimit : Nat
deriving DecidableEq

/-- The estimate-and-send tail of joinDao: estimate gas for join (a
failure surfaces the revert reason), take the fee gas price with a 1 gwei
fallback, buffer the estimate by 20 percent and send the payable join
with the 0.1 ether fee, which is 100000000000000000 wei. -/
def joinDaoSend (estimate : Except String Nat) (feeGasPrice : Option Nat) :
    Except JoinErr JoinTx × CallTrace :=
  match estimate with
  | Except.error m => (Except.error (JoinErr.failed m), ⟨true, false⟩)
  | Except.ok e =>
    let gasPrice := feeGasPrice.getD gweiWei
    let gasLimit := e + e / 5
    (Except.ok ⟨100000000000000000, gasPrice, gasLimit⟩, ⟨true, true⟩)

/-- clientJoinDao: joining reads the current address and, when present and
already a verified member, fails with the already-a-member error before
any estimation or send; otherwise it proceeds to the estimate-and-send
tail. -/
def clientJoinDao (address : Option String) (memberOf : String → Bool)
    (estimate : Except String Nat) (feeGasPrice : Option Nat) :
    Except JoinErr JoinTx × CallTrace :=
  match address with
  | some a =>
    if memberOf a then (Except.error JoinErr.alreadyMember, ⟨false, false⟩)
    else joinDaoSend estimate feeGasPrice
  | none => joinDaoSend estimate feeGasPrice

/-- C8: join with an already-verified member fails immediately with the
already-a-member error; no gas estimation and no send happen. -/
theorem join_already_member (a : String) (memberOf : String → Bool)
    (estimate : Except String Nat) (feeGasPrice : Option Nat)
    (hm : memberOf a = true) :
    clientJoinDao (some a) memberOf estimate feeGasPrice =
      (Except.error JoinErr.alreadyMember, ⟨false, false⟩) := by
  simp only [clientJoinDao, if_pos hm]

/-- C8 witness: alice, a member, attempting to join fails with the
already-a-member error and the trace records neither estimation nor
send. -/
theorem join_already_member_witness :
    ((fun x => x == "alice") "alice" = true) ∧
    clientJoinDao (some "alice") (fun x => x == "alice")
        (Except.ok 21000) (some gweiWei) =
      (Except.error JoinErr.alreadyMember, ⟨false, false⟩) :=
  ⟨by decide, join_already_member "alice" (fun x => x == "alice")
    (Except.ok 21000) (some gweiWei) (by decide)⟩

/-- Revert reason classes recognised by the executeProposal estimation
translation. -/
inductive ExecRevertKind where
  | alreadyExecuted
  | notMember
  | deadline
  | other (msg : String)
deriving DecidableEq

/-- Typed failures of the executeProposal write path. -/
inductive ExecErr where
  | readFailed (msg : String)
  | rangeError (pid maxId : Nat)
  | alreadyExecuted
  | notMember
  | deadlineNotPassed
  | cannotExecute (msg : String)
deriving DecidableEq

/-- The execute transaction as submitted. -/
structure ExecTx where
  proposalId : Nat
  gasPrice : Nat
  gasLimit : Nat
deriving DecidableEq

/-- clientExecuteProposal: the executeProposal write path of daoUtils.ts:
range-check the id against numProposal, estimate gas translating the
already-executed, not-a-member and deadline revert kinds, take the fee
gas price with a 20 gwei fallback, buffer the estimate by 20 percent and
send. -/
def clientExecuteProposal (pid : Nat) (numProposalRead : Except String Nat)
    (estimate : Except ExecRevertKind Nat) (feeGasPrice : Option Nat) :
    Except ExecErr ExecTx × CallTrace :=
  match numProposalRead with
  | Except.error m => (Except.error (ExecErr.readFailed m), ⟨false, false⟩)
  | Except.ok maxId =>
    if pid < 1 ∨ pid > maxId then
      (Except.error (ExecErr.rangeError pid maxId), ⟨false, false⟩)
    else
      match estimate with
      | Except.error ExecRevertKind.alreadyExecuted =>
        (Except.error ExecErr.alreadyExecuted, ⟨true, false⟩)
      | Except.error ExecRevertKind.notMember =>
        (Except.error ExecErr.notMember, ⟨true, false⟩)
      | Except.error ExecRevertKind.deadline =>
        (Except.error ExecErr.deadlineNotPassed, ⟨true, false⟩)
      | Except.error (ExecRevertKind.other m) =>
        (Except.error (ExecErr.cannotExecute m), ⟨true, false⟩)
      | Except.ok e =>
        let gasPrice := feeGasPrice.getD twentyGweiWei
        let gasLimit := e + e / 5
        (Except.ok ⟨pid, gasPrice, gasLimit⟩, ⟨true, true⟩)

/-- C9: whenever gas estimation succeeds with estimate E, each write
pipeline submits its transaction with gas limit E + E / 5 (Nat division
is floor): join with a non-member caller, vote for an in-range id with
verified membership, and execute for an in-range id. The limit depends
only on the estimate, so it is deterministic for the same E. -/
theorem gas_buffer_twenty_percent (E : Nat) (fee : Option Nat) :
    (∀ a memberOf, memberOf a = false →
      ∃ tx : JoinTx,
        (clientJoinDao (some a) memberOf (Except.ok E) fee).1 = Except.ok tx ∧
        tx.gasLimit = E + E / 5) ∧
    (∀ pid vote maxId, 1 ≤ pid → pid ≤ maxId →
      ∃ tx : SubmittedVoteTx,
        (clientVoteProposal pid vote (Except.ok maxId) true (Except.ok E)
          fee).1 = Except.ok tx ∧
        tx.gasLimit = E + E / 5) ∧
    (∀ pid maxId, 1 ≤ pid → pid ≤ maxId →
      ∃ tx : ExecTx,
        (clientExecuteProposal pid (Except.ok maxId) (Except.ok E) fee).1 =
          Except.ok tx ∧
        tx.gasLimit = E + E / 5) := by
  refine ⟨?_, ?_, ?_⟩
  · intro a memberOf hm
    have hc : clientJoinDao (some a) memberOf (Except.ok E) fee =
        joinDaoSend (Except.ok E) fee := by
      simp only [clientJoinDao]
      rw [if_neg (by simp [hm])]
    rw [hc]
    exact ⟨_, rfl, rfl⟩
  · intro pid vote maxId h1 h2
    have hrange : ¬ (pid < 1 ∨ pid > maxId) := by omega
    simp only [clientVoteProposal]
    rw [if_neg hrange, if_neg (by simp)]
    exact ⟨_, rfl, rfl⟩
  · intro pid maxId h1 h2
    have hrange : ¬ (pid < 1 ∨ pid > maxId) := by omega
    simp only [clientExecuteProposal]
    rw [if_neg hrange]
    exact ⟨_, rfl, rfl⟩

/-- C9 witness: with estimate 100000 and no fee data, non-member bob can
join, and vote and execute on proposal 1 of 2 submit; each transaction
carries gas limit 100000 + 20000. -/
theorem gas_buffer_twenty_percent_witness :
    ((fun x => x == "alice") "bob" = false) ∧
    (∃ tx : JoinTx,
      (clientJoinDao (some "bob") (fun x => x == "alice")
        (Except.ok 100000) none).1 = Except.ok tx ∧
      tx.gasLimit = 100000 + 100000 / 5) ∧
    (1 : Nat) ≤ 1 ∧ (1 : Nat) ≤ 2 ∧
    (∃ tx : SubmittedVoteTx,
      (clientVoteProposal 1 0 (Except.ok 2) true (Except.ok 100000) none).1 =
        Except.ok tx ∧
      tx.gasLimit = 100000 + 100000 / 5) ∧
    (∃ tx : ExecTx,
      (clientExecuteProposal 1 (Except.ok 2) (Except.ok 100000) none).1 =
        Except.ok tx ∧
      tx.gasLimit = 100000 + 100000 / 5) :=
  ⟨by decide,
   (gas_buffer_twenty_percent 100000 none).1 "bob" _ (by decide),
   by decide, by decide,
   (gas_buffer_twenty_percent 100000 none).2.1 1 0 2 (by decide) (by decide),
   (gas_buffer_twenty_percent 100000 none).2.2 1 2 (by decide) (by decide)⟩

end Yaebo
